import Mathlib

/-!
Verification development for the multi-agent job-search workflow.

Shallow embedding of `src/utils.py`, `src/agents.py` and `src/graph.py`:
pure Python functions become Lean functions; provider (LLM agent) calls are
modelled as oracle parameters; a Python exception raised by an uncaught call
is modelled as `Except.error`; the dynamic JSON values handled by the
extractor become the inductive type `Json`.
-/

namespace JobSearch

/-- JSON values as produced by Python's `json.loads`.  Numbers are modelled as
integers: every JSON literal appearing in this repository's data (job ids,
tags, previews) is a string or a small integer, so float syntax is treated as
a parse failure in the model. -/
inductive Json where
  | null : Json
  | bool (b : Bool) : Json
  | num (n : Int) : Json
  | str (s : String) : Json
  | arr (elems : List Json) : Json
  | obj (members : List (String × Json)) : Json

/-- Whitespace accepted between JSON tokens by `json.loads`. -/
def isJsonWs (c : Char) : Bool :=
  c = ' ' || c = '\t' || c = '\n' || c = '\r'

/-- Drop leading JSON whitespace. -/
def skipJsonWs : List Char → List Char
  | [] => []
  | c :: cs => if isJsonWs c then skipJsonWs cs else c :: cs

/-- Hexadecimal digit value, for string escapes. -/
def hexVal (c : Char) : Option Nat :=
  if c.toNat ≥ 48 ∧ c.toNat ≤ 57 then some (c.toNat - 48)
  else if c.toNat ≥ 97 ∧ c.toNat ≤ 102 then some (c.toNat - 87)
  else if c.toNat ≥ 65 ∧ c.toNat ≤ 70 then some (c.toNat - 55)
  else none

/-- Single-character string escapes of JSON. -/
def escChar : Char → Option Char
  | 'n' => some '\n'
  | 't' => some '\t'
  | 'r' => some '\r'
  | '"' => some '"'
  | '\\' => some '\\'
  | '/' => some '/'
  | 'b' => some (Char.ofNat 8)
  | 'f' => some (Char.ofNat 12)
  | _ => none

/-- Parse the body of a JSON string (the opening quote already consumed),
returning the decoded characters and the remainder after the closing quote.
Raw control characters are rejected, as in Python's strict mode. -/
def parseStrBody : List Char → Option (List Char × List Char)
  | [] => none
  | '"' :: rest => some ([], rest)
  | '\\' :: 'u' :: h1 :: h2 :: h3 :: h4 :: rest =>
    match hexVal h1, hexVal h2, hexVal h3, hexVal h4 with
    | some a1, some a2, some a3, some a4 =>
      (parseStrBody rest).map
        (fun p => (Char.ofNat (((a1 * 16 + a2) * 16 + a3) * 16 + a4) :: p.1, p.2))
    | _, _, _, _ => none
  | '\\' :: e :: rest =>
    match escChar e with
    | some c => (parseStrBody rest).map (fun p => (c :: p.1, p.2))
    | none => none
  | c :: rest =>
    if c = '\\' then none
    else if c.toNat < 32 then none
    else (parseStrBody rest).map (fun p => (c :: p.1, p.2))

/-- Split a maximal run of decimal digits off the front. -/
def takeDigits : List Char → List Char × List Char
  | [] => ([], [])
  | c :: cs =>
    if c.isDigit then
      let p := takeDigits cs
      (c :: p.1, p.2)
    else ([], c :: cs)

/-- Digits to a natural number. -/
def digitsToNat (ds : List Char) : Nat :=
  ds.foldl (fun acc c => acc * 10 + (c.toNat - 48)) 0

/-- Parse a JSON integer token (optional minus sign, no leading zeros). -/
def parseIntTok (cs : List Char) : Option (Int × List Char) :=
  let p : Bool × List Char :=
    match cs with
    | '-' :: r => (true, r)
    | _ => (false, cs)
  match takeDigits p.2 with
  | ([], _) => none
  | (ds, rest) =>
    if ds.length > 1 ∧ ds.headD '0' = '0' then none
    else
      let n : Int := Int.ofNat (digitsToNat ds)
      some (if p.1 then -n else n, rest)

mutual

/-- Parse one JSON value; fuel bounds the recursion depth (one unit of fuel is
consumed per nested construct, each of which consumes at least one character,
so `length + 1` fuel always suffices). -/
def parseVal : Nat → List Char → Option (Json × List Char)
  | 0, _ => none
  | Nat.succ fuel, cs =>
    match skipJsonWs cs with
    | 'n' :: 'u' :: 'l' :: 'l' :: rest => some (.null, rest)
    | 't' :: 'r' :: 'u' :: 'e' :: rest => some (.bool true, rest)
    | 'f' :: 'a' :: 'l' :: 's' :: 'e' :: rest => some (.bool false, rest)
    | '"' :: rest => (parseStrBody rest).map (fun p => (.str (String.mk p.1), p.2))
    | '[' :: rest =>
      (match skipJsonWs rest with
       | ']' :: rest2 => some (.arr [], rest2)
       | cs2 => (parseElems fuel cs2).map (fun p => (.arr p.1, p.2)))
    | '{' :: rest =>
      (match skipJsonWs rest with
       | '}' :: rest2 => some (.obj [], rest2)
       | cs2 => (parseMembers fuel cs2).map (fun p => (.obj p.1, p.2)))
    | cs1 => (parseIntTok cs1).map (fun p => (.num p.1, p.2))

/-- Parse the non-empty element list of a JSON array, up to and including the
closing bracket. -/
def parseElems : Nat → List Char → Option (List Json × List Char)
  | 0, _ => none
  | Nat.succ fuel, cs =>
    match parseVal fuel cs with
    | none => none
    | some (v, rest) =>
      match skipJsonWs rest with
      | ',' :: rest2 => (parseElems fuel rest2).map (fun p => (v :: p.1, p.2))
      | ']' :: rest2 => some ([v], rest2)
      | _ => none

/-- Parse the non-empty member list of a JSON object, up to and including the
closing brace. -/
def parseMembers : Nat → List Char → Option (List (String × Json) × List Char)
  | 0, _ => none
  | Nat.succ fuel, cs =>
    match skipJsonWs cs with
    | '"' :: rest =>
      (match parseStrBody rest with
       | none => none
       | some (key, rest1) =>
         match skipJsonWs rest1 with
         | ':' :: rest2 =>
           (match parseVal fuel rest2 with
            | none => none
            | some (v, rest3) =>
              match skipJsonWs rest3 with
              | ',' :: rest4 =>
                (parseMembers fuel rest4).map (fun p => ((String.mk key, v) :: p.1, p.2))
              | '}' :: rest4 => some ([(String.mk key, v)], rest4)
              | _ => none)
         | _ => none)
    | _ => none

end

/-- Embedding of Python's `json.loads`: parse one value and require that only
whitespace remains (Python raises `Extra data` otherwise, which the caller in
`utils.py` converts to a failure). -/
def json_loads (s : String) : Option Json :=
  match parseVal (s.data.length + 1) s.data with
  | some (v, rest) =>
    (match skipJsonWs rest with
     | [] => some v
     | _ => none)
  | none => none

/-- The result of `json.loads` restricted to arrays.  Every candidate string
fed to it by `extract_json_from_markdown` starts with `[`, so a successful
parse is always an array. -/
def json_loads_arr (s : String) : Option (List Json) :=
  match json_loads s with
  | some (.arr xs) => some xs
  | _ => none

/-- The backtick character, used by the fenced-code-block pattern. -/
def btick : Char := Char.ofNat 96

/-- Characters matched by the regex class `\s` (ASCII fragment: space, tab,
newline, carriage return, vertical tab, form feed; the repository's inputs
contain no exotic Unicode whitespace). -/
def isReWs (c : Char) : Bool :=
  c = ' ' || c = '\t' || c = '\n' || c = '\r' || c = Char.ofNat 11 || c = Char.ofNat 12

/-- Drop a maximal run of `\s` characters, as a greedy `\s*` does when the
following literal is not itself whitespace. -/
def dropReWs : List Char → List Char
  | [] => []
  | c :: cs => if isReWs c then dropReWs cs else c :: cs

/-- Does the text begin with three backticks? -/
def beginsWithFence (cs : List Char) : Bool :=
  match cs with
  | a :: b :: c :: _ => a = btick && b = btick && c = btick
  | _ => false

/-- Scan for the closing bracket of the captured group in the pattern
found in `utils.py`, a fenced block holding a bracketed array with the
interior matched lazily.  The lazy quantifier prefers the earliest closing
bracket after which optional whitespace and three backticks follow; a
closing bracket failing that test is absorbed and the scan continues.
Returns the group's tail, closing bracket included. -/
def fencedClose : List Char → Option (List Char)
  | [] => none
  | c :: rest =>
    if c = ']' && beginsWithFence (dropReWs rest) then some [']']
    else (fencedClose rest).map (fun tail => c :: tail)

/-- Try to match the fenced-block pattern of `utils.py` (three backticks, an
optional literal `json`, optional whitespace, then the lazily matched
bracketed group, optional whitespace, three closing backticks) starting
exactly at this position.  When the literal `json` follows the opening fence
the pattern without it cannot match here (the next character would have to be
both `j` and `[` or whitespace), so consuming it when present is faithful to
the backtracking order of the optional group. -/
def matchFencedAt (cs : List Char) : Option (List Char) :=
  match cs with
  | a :: b :: c :: rest =>
    if a = btick && b = btick && c = btick then
      let rest1 :=
        match rest with
        | 'j' :: 's' :: 'o' :: 'n' :: r => r
        | _ => rest
      match dropReWs rest1 with
      | '[' :: rest2 => (fencedClose rest2).map (fun tail => '[' :: tail)
      | _ => none
    else none
  | _ => none

/-- Leftmost match of the fenced-block pattern: try every start position in
order, as `re.search` does. -/
def findFencedAux : List Char → Option (List Char)
  | [] => none
  | c :: rest =>
    match matchFencedAt (c :: rest) with
    | some g => some g
    | none => findFencedAux rest

/-- Scan up to and including the first closing bracket, the lazy
interior of the bare bracket pattern of `utils.py`. -/
def bracketClose : List Char → Option (List Char)
  | [] => none
  | c :: rest =>
    if c = ']' then some [']']
    else (bracketClose rest).map (fun tail => c :: tail)

/-- Leftmost match of the lazy bare-bracket pattern: the match runs from the
first opening bracket to the first closing bracket after it.  When no closing
bracket follows the first opening bracket, none follows any later opening
bracket either, so the whole search fails. -/
def findBracketAux : List Char → Option (List Char)
  | [] => none
  | c :: rest =>
    if c = '[' then (bracketClose rest).map (fun tail => '[' :: tail)
    else findBracketAux rest

/-- Embedding of the first regex search in `extract_json_from_markdown`
(`re.search` of the fenced pattern with `re.DOTALL`), returning capture
group 1. -/
def re_search_fenced (text : String) : Option String :=
  (findFencedAux text.data).map String.mk

/-- Embedding of the second regex search in `extract_json_from_markdown`
(`re.search` of the lazy bare-bracket pattern with `re.DOTALL`), returning
the whole match. -/
def re_search_bracket (text : String) : Option String :=
  (findBracketAux text.data).map String.mk

/-- Embedding of `extract_json_from_markdown` from `src/utils.py`: prefer the
fenced-block capture, fall back to the first bare bracketed substring, parse
the candidate with `json.loads`, and convert any parse failure or absent
candidate to the empty list. -/
def extract_json_from_markdown (text : String) : List Json :=
  match re_search_fenced text with
  | some js => (json_loads_arr js).getD []
  | none =>
    match re_search_bracket text with
    | some js => (json_loads_arr js).getD []
    | none => []

/-- Scan up to and including the last closing bracket of the text, the
greedy interior of a bracket pattern. -/
def bracketCloseGreedy : List Char → Option (List Char)
  | [] => none
  | c :: rest =>
    match bracketCloseGreedy rest with
    | some tail => some (c :: tail)
    | none => if c = ']' then some [']'] else none

/-- Greedy variant of the bare-bracket search: from the first opening bracket
to the last closing bracket of the text. -/
def findBracketGreedyAux : List Char → Option (List Char)
  | [] => none
  | c :: rest =>
    if c = '[' then (bracketCloseGreedy rest).map (fun tail => '[' :: tail)
    else findBracketGreedyAux rest

/-- Modelled from the spec: section 4.3 step 2 reads "search for the first
substring matching a greedy bracket-delimited array pattern"; this definition
follows those words (greedy interior, first opening bracket to last closing
bracket), to be compared with the source's lazy pattern in
`extract_json_from_markdown`. -/
def extractArray_greedy (text : String) : List Json :=
  match re_search_fenced text with
  | some js => (json_loads_arr js).getD []
  | none =>
    match (findBracketGreedyAux text.data).map String.mk with
    | some js => (json_loads_arr js).getD []
    | none => []

/-- A job record, as the dictionaries passed between nodes in `src/graph.py`
are documented (id, source, title, company, location, description, optional
url); `enriched_tag` is the key added by the enrich node. -/
structure Job where
  id : String := ""
  source : String := ""
  title : String := ""
  company : String := ""
  location : String := ""
  description : String := ""
  url : Option String := none
  enriched_tag : Option String := none
deriving DecidableEq

/-- The `State` TypedDict of `src/graph.py` (`total=False`): every field may
be absent, which `none` models.  A `location` stored as Python `None` and an
absent `location` are collapsed, since the code only reads it with `.get`. -/
structure State where
  seed_terms : Option (List String) := none
  location : Option String := none
  resume_pdf_path : Option String := none
  jobs : Option (List Job) := none
  needs_enrichment : Option Bool := none
  enriched_jobs : Option (List Job) := none
  ranked_jobs : Option (List Job) := none
  shortlisted_jobs : Option (List Job) := none
  selected_jobs : Option (List Job) := none
  tailored_resumes : Option (List (String × String)) := none
deriving DecidableEq

/-- Python's `location or "Remote"`: an absent, `None` or empty location
falls back to the literal. -/
def locOrRemote (location : Option String) : String :=
  match location with
  | some l => if l = "" then "Remote" else l
  | none => "Remote"

/-- The fixed fallback job list of `n_search` in `src/graph.py`. -/
def fallback_jobs (location : Option String) : List Job :=
  [ { id := "stub_li_0", source := "linkedin", title := "Python Engineer",
      company := "EnterpriseCo", location := locOrRemote location,
      description := "Looking for python engineers with cloud and data experience." },
    { id := "stub_li_1", source := "linkedin", title := "Backend Engineer",
      company := "ScaleUp", location := locOrRemote location,
      description := "Looking for backend engineers with cloud and data experience." },
    { id := "stub_yc_0", source := "ycombinator", title := "Python Engineer",
      company := "StartupCo", location := locOrRemote location,
      description := "Seeking python engineer to build MVP features across stack." } ]

/-- Embedding of `invoke_search` from `src/agents.py`.  The oracle stands for
`search_agent_executor.invoke` composed with `extract_agent_results`; the
latter swallows its own exceptions and always yields a list, so the trailing
`isinstance(jobs, list)` guard of the source is the identity here.  An
`Except.error` models an exception raised by the executor call itself, which
`invoke_search` wraps in no `try`/`except` and therefore propagates. -/
def invoke_search (provider : List String → Option String → Except String (List Job))
    (seed_terms : List String) (location : Option String) : Except String (List Job) :=
  provider seed_terms location

/-- Embedding of the `n_search` closure of `build_graph` in `src/graph.py`:
read the seed terms with default, call the search agent, substitute the
fallback list when the agent returns nothing, and record whether enrichment
is needed.  An exception from the agent call is not caught and propagates
out of the node. -/
def n_search (provider : List String → Option String → Except String (List Job))
    (s : State) : Except String State :=
  let terms := s.seed_terms.getD ["python", "ml"]
  match invoke_search provider terms s.location with
  | .error e => .error e
  | .ok agentJobs =>
    let jobs := if agentJobs.isEmpty then fallback_jobs s.location else agentJobs
    .ok { s with jobs := some jobs, needs_enrichment := some (decide (jobs.length > 12)) }

/-- The per-job enrichment of `n_enrich`: copy the dictionary and set the
`enriched_tag` key from the description length. -/
def enrich_job (j : Job) : Job :=
  { j with enriched_tag := some (if j.description.length > 50 then "long-desc" else "short-desc") }

/-- Embedding of the `n_enrich` closure of `build_graph`: tag every job of
the `jobs` field (defaulting to the empty list) and store the result under
`enriched_jobs`. -/
def n_enrich (s : State) : State :=
  { s with enriched_jobs := some ((s.jobs.getD []).map enrich_job) }

/-- Embedding of `invoke_screen` from `src/agents.py`: an empty job list
short-circuits to the empty result without consulting the agent; otherwise
the oracle stands for the executor call composed with
`extract_agent_results`, with `Except.error` modelling an uncaught executor
exception. -/
def invoke_screen (provider : List Job → String → Except String (List Job))
    (jobs : List Job) (resume_path : String) : Except String (List Job) :=
  if jobs.isEmpty then .ok []
  else provider jobs resume_path

/-- The base job list of `n_screen`, Python's
`s.get("enriched_jobs") or s.get("jobs", [])`: an absent or empty
`enriched_jobs` falls back to `jobs`. -/
def screen_base (s : State) : List Job :=
  match s.enriched_jobs with
  | some l => if l.isEmpty then s.jobs.getD [] else l
  | none => s.jobs.getD []

/-- Embedding of the `n_screen` closure of `build_graph`: screen the base
list against the resume path and store the first ten ranked jobs under both
`ranked_jobs` and `shortlisted_jobs`. -/
def n_screen (provider : List Job → String → Except String (List Job))
    (s : State) : Except String State :=
  match invoke_screen provider (screen_base s) (s.resume_pdf_path.getD "") with
  | .error e => .error e
  | .ok ranked =>
    .ok { s with ranked_jobs := some (ranked.take 10), shortlisted_jobs := some (ranked.take 10) }

/-- The dynamic shape of a resume value, discriminated as the source does
with `isinstance`: a non-empty list whose first element is a string, a
non-empty list whose first element is a dictionary, the empty list, or
anything else (not a list, or a list of other element types). -/
inductive ResumeValue where
  | ids (elems : List String)
  | objects (elems : List Job)
  | emptyList
  | other
deriving DecidableEq

/-- The selection loop of `n_select`: walk `ranked_jobs` in order, appending
each job whose id lies in the id set while fewer than two are chosen. -/
def select_by_ids (id_set : List String) : List Job → List Job → List Job
  | [], chosen => chosen
  | j :: rest, chosen =>
    if id_set.contains j.id ∧ chosen.length < 2
    then select_by_ids id_set rest (chosen ++ [j])
    else select_by_ids id_set rest chosen

/-- Resolution of a resume value against the ranked list, as in `n_select`:
an id list selects by membership in ranked order (capped at two), an object
list is truncated to two, everything else yields nothing; an empty choice
falls back to the first two ranked jobs. -/
def resolve_selection (ranked : List Job) (selection : ResumeValue) : List Job :=
  let chosen :=
    match selection with
    | .ids xs => select_by_ids xs ranked []
    | .objects xs => xs.take 2
    | .emptyList => []
    | .other => []
  if chosen.isEmpty then ranked.take 2 else chosen

/-- The payload offered to the external actor by `interrupt` in `n_select`. -/
structure InterruptPayload where
  instruction : String
  ranked_jobs : List Job
deriving DecidableEq

/-- The payload built by `n_select` before interrupting. -/
def select_payload (s : State) : InterruptPayload :=
  { instruction := "Select top 2 job IDs or objects to tailor.",
    ranked_jobs := s.ranked_jobs.getD [] }

/-- Embedding of the `n_select` closure of `build_graph`.  The LangGraph
`interrupt` primitive is modelled two-phase: with no resume value supplied
the node surrenders its payload (`Sum.inl`), and with one supplied the call
to `interrupt` returns it and the node completes.  A state that already
holds `selected_jobs` is returned unchanged without interrupting. -/
def n_select (resume_value : Option ResumeValue) (s : State) : Sum InterruptPayload State :=
  match s.selected_jobs with
  | none =>
    (match resume_value with
     | none => .inl (select_payload s)
     | some sel =>
       .inr { s with selected_jobs := some (resolve_selection (s.ranked_jobs.getD []) sel) })
  | some _ => .inr s

/-- First-member lookup in a parsed JSON object, Python's `dict.get`. -/
def jlookup (members : List (String × Json)) (key : String) : Option Json :=
  match members with
  | [] => none
  | (k, v) :: rest => if k = key then some v else jlookup rest key

/-- Python's `str` on the scalar JSON values that can appear as a job id in
the tailor output; containers are rendered with a placeholder (the
repository's ids are strings, so the placeholder branch is never exercised
by the properties proved below). -/
def pyStrScalar : Json → String
  | .str s => s
  | .num n => toString n
  | .bool true => "True"
  | .bool false => "False"
  | .null => "None"
  | .arr _ => "<list>"
  | .obj _ => "<dict>"

/-- Python truthiness of a JSON value, for the `(item or \x7b\x7d)` guard in
`invoke_tailor`. -/
def jfalsy : Json → Bool
  | .null => true
  | .bool b => !b
  | .num n => n = 0
  | .str s => s = ""
  | .arr xs => xs.isEmpty
  | .obj ms => ms.isEmpty

/-- Insertion into the `out` dictionary of `invoke_tailor`, with Python dict
semantics: an existing key keeps its position and its value is overwritten,
a new key is appended. -/
def dict_insert (d : List (String × String)) (k v : String) : List (String × String) :=
  if d.any (fun p => p.1 = k) then d.map (fun p => if p.1 = k then (k, v) else p)
  else d ++ [(k, v)]

/-- The result-building loop of `invoke_tailor`: each object item contributes
`str(item.get("id", "unknown")) -> item.get("preview", ""))`; a falsy
non-object item is replaced by the empty dictionary and contributes the
defaults; a truthy non-object item makes `.get` raise, which the
surrounding `try` converts into the error mapping.  A non-string preview is
coerced to the empty string in the model (the source would store the raw
value in a `Dict[str, str]` unchecked). -/
def tailor_fold (d : List (String × String)) : List Json → Except String (List (String × String))
  | [] => .ok d
  | item :: rest =>
    match item with
    | .obj ms =>
      let jid :=
        match jlookup ms "id" with
        | some v => pyStrScalar v
        | none => "unknown"
      let preview :=
        match jlookup ms "preview" with
        | some (.str p) => p
        | some _ => ""
        | none => ""
      tailor_fold (dict_insert d jid preview) rest
    | v =>
      if jfalsy v then tailor_fold (dict_insert d "unknown" "") rest
      else .error "AttributeError: object has no attribute get"

/-- Embedding of `invoke_tailor` from `src/agents.py`.  The oracle stands for
`tailor_agent_executor.invoke` followed by reading the final message's text;
an `Except.error` models an exception raised inside the `try` block.  An
empty selection short-circuits to the empty mapping; any failure inside the
`try` block becomes a single-entry error mapping; otherwise the final text is
run through the extractor and folded into the id-to-preview mapping. -/
def invoke_tailor (provider : List Job → String → Except String String)
    (selected_jobs : List Job) (resume_path : String) : List (String × String) :=
  if selected_jobs.isEmpty then []
  else
    match provider selected_jobs resume_path with
    | .error e => [("error", "Tailor call failed: " ++ e)]
    | .ok final_text =>
      match tailor_fold [] (extract_json_from_markdown final_text) with
      | .ok d => d
      | .error e => [("error", "Tailor call failed: " ++ e)]

/-- Embedding of the `n_tailor` closure of `build_graph`: tailor the selected
jobs and store the mapping under `tailored_resumes`. -/
def n_tailor (provider : List Job → String → Except String String) (s : State) : State :=
  let mapping := invoke_tailor provider (s.selected_jobs.getD []) (s.resume_pdf_path.getD "")
  { s with tailored_resumes := some mapping }

/-- The router of the conditional edge after the search node, Python's
`"enrich" if s.get("needs_enrichment") else "screen"`. -/
def route_from_search (s : State) : String :=
  if s.needs_enrichment.getD false then "enrich" else "screen"

/-- An edge of the compiled workflow graph: either unconditional, or
conditional with a router function and a label-to-target mapping. -/
inductive GraphEdge where
  | direct (src dst : String)
  | conditional (src : String) (router : State → String) (mapping : List (String × String))

/-- Is this edge conditional? -/
def GraphEdge.isConditional : GraphEdge → Bool
  | .conditional _ _ _ => true
  | _ => false

/-- The edge set wired by `build_graph` in `src/graph.py`, in source order;
`END` stands for the terminal marker. -/
def graph_edges : List GraphEdge :=
  [ .conditional "search_agent" route_from_search
      [("enrich", "enrich_node"), ("screen", "screen_agent")],
    .direct "enrich_node" "screen_agent",
    .direct "screen_agent" "human_select_interrupt",
    .direct "human_select_interrupt" "tailor_agent",
    .direct "tailor_agent" "END" ]

/-- The entry point set by `build_graph`. -/
def entry_point : String := "search_agent"

/-- The three capability-provider oracles threaded through a run. -/
structure Providers where
  search : List String → Option String → Except String (List Job)
  screen : List Job → String → Except String (List Job)
  tailor : List Job → String → Except String String

/-- The outcome of invoking the compiled graph: suspended at the interrupt
node with the checkpointed state and offered payload, completed with a final
state, or terminated by an uncaught node exception. -/
inductive RunOutcome where
  | suspended (saved : State) (payload : InterruptPayload)
  | completed (final : State)
  | raised (message : String)
deriving DecidableEq

/-- Modelled from the spec: the Workflow Graph Engine (the LangGraph runtime,
which is not part of this repository's sources) walks from the entry point
through the wired edges, threading the state; when the interrupt node runs
with no resume value supplied it halts, checkpointing the current state and
returning the suspended payload (spec section 4.1, steps 1 and 2).  The
nodes themselves are the embeddings above of the closures in `src/graph.py`.
Returns the outcome together with the sequence of node names executed. -/
def run_fresh (p : Providers) (s0 : State) : RunOutcome × List String :=
  match n_search p.search s0 with
  | .error e => (.raised e, ["search_agent"])
  | .ok s1 =>
    let step2 : State × List String :=
      if route_from_search s1 = "enrich"
      then (n_enrich s1, ["search_agent", "enrich_node"])
      else (s1, ["search_agent"])
    match n_screen p.screen step2.1 with
    | .error e => (.raised e, step2.2 ++ ["screen_agent"])
    | .ok s3 =>
      match n_select none s3 with
      | .inl payload =>
        (.suspended s3 payload, step2.2 ++ ["screen_agent", "human_select_interrupt"])
      | .inr s4 =>
        (.completed (n_tailor p.tailor s4),
         step2.2 ++ ["screen_agent", "human_select_interrupt", "tailor_agent"])

/-- Modelled from the spec: resuming a checkpointed run passes the resume
value into the interrupting node's continuation and continues forward
through the remaining edges to completion (spec section 4.1, step 3). -/
def resume_run (p : Providers) (saved : State) (v : ResumeValue) : RunOutcome × List String :=
  match n_select (some v) saved with
  | .inl payload => (.suspended saved payload, ["human_select_interrupt"])
  | .inr s4 => (.completed (n_tailor p.tailor s4), ["human_select_interrupt", "tailor_agent"])

/-- A whole run: fresh invocation, then, if suspended, resumption with the
given resume value; the trace concatenates the node sequences of the two
invocations. -/
def full_run (p : Providers) (s0 : State) (v : ResumeValue) : RunOutcome × List String :=
  match run_fresh p s0 with
  | (.suspended saved _, tr) =>
    let res := resume_run p saved v
    (res.1, tr ++ res.2)
  | out => out

/-- A deterministic provider triple used to instantiate theorems at concrete
inputs: the search agent returns nothing (forcing the fallback), the screen
agent keeps every job, the tailor agent answers with an empty array. -/
def mockProviders : Providers :=
  { search := fun _ _ => .ok [],
    screen := fun jobs _ => .ok jobs,
    tailor := fun _ _ => .ok "[]" }

/-- The id-selection loop of `n_select` collects, in ranked order, the first
two jobs whose id belongs to the id set, appended to what was already
chosen. -/
theorem select_by_ids_eq (id_set : List String) (ranked : List Job) :
    ∀ chosen : List Job,
      select_by_ids id_set ranked chosen =
        chosen ++ (ranked.filter (fun j => id_set.contains j.id)).take (2 - chosen.length) := by
  induction ranked with
  | nil => intro chosen; simp [select_by_ids]
  | cons j rest ih =>
    intro chosen
    by_cases hmem : id_set.contains j.id
    · have hm : j.id ∈ id_set := by simpa using hmem
      by_cases hlen : chosen.length < 2
      · rw [select_by_ids, if_pos ⟨hmem, hlen⟩, ih (chosen ++ [j])]
        have h2 : 2 - chosen.length = (2 - (chosen.length + 1)) + 1 := by omega
        simp [List.filter_cons, hm, h2, List.append_assoc]
      · rw [select_by_ids, if_neg (fun hc => hlen hc.2), ih chosen]
        have h0 : 2 - chosen.length = 0 := by omega
        simp [List.filter_cons, hm, h0]
    · have hm : ¬ j.id ∈ id_set := by simpa using hmem
      rw [select_by_ids, if_neg (fun hc => hmem hc.1), ih chosen]
      simp [List.filter_cons, hm]

/-- Both phases of `n_select` leave every field other than `selected_jobs`
untouched. -/
theorem n_select_frame (r : Option ResumeValue) (s s' : State)
    (h : n_select r s = Sum.inr s') :
    s'.jobs = s.jobs ∧ s'.needs_enrichment = s.needs_enrichment
    ∧ s'.enriched_jobs = s.enriched_jobs ∧ s'.ranked_jobs = s.ranked_jobs
    ∧ s'.shortlisted_jobs = s.shortlisted_jobs ∧ s'.seed_terms = s.seed_terms
    ∧ s'.location = s.location ∧ s'.resume_pdf_path = s.resume_pdf_path := by
  cases hsel : s.selected_jobs with
  | none =>
    cases r with
    | none => simp [n_select, hsel] at h
    | some v =>
      simp only [n_select, hsel, Sum.inr.injEq] at h
      subst h
      exact ⟨rfl, rfl, rfl, rfl, rfl, rfl, rfl, rfl⟩
  | some chosen =>
    simp only [n_select, hsel, Sum.inr.injEq] at h
    subst h
    exact ⟨rfl, rfl, rfl, rfl, rfl, rfl, rfl, rfl⟩

/-- `n_tailor` writes only the `tailored_resumes` field. -/
theorem n_tailor_frame (p : List Job → String → Except String String) (s : State) :
    (n_tailor p s).jobs = s.jobs ∧ (n_tailor p s).needs_enrichment = s.needs_enrichment
    ∧ (n_tailor p s).enriched_jobs = s.enriched_jobs
    ∧ (n_tailor p s).ranked_jobs = s.ranked_jobs
    ∧ (n_tailor p s).shortlisted_jobs = s.shortlisted_jobs
    ∧ (n_tailor p s).seed_terms = s.seed_terms ∧ (n_tailor p s).location = s.location
    ∧ (n_tailor p s).resume_pdf_path = s.resume_pdf_path := by
  exact ⟨rfl, rfl, rfl, rfl, rfl, rfl, rfl, rfl⟩

/-- Claim C1, counterexample to the claim as stated.  The claim (following
spec section 4.3) says the fallback search uses a greedy bracket pattern; the
source's pattern is lazy.  On the nested array text the greedy reading finds
the whole well-formed array while the source stops at the first closing
bracket, fails to parse, and returns the empty list. -/
theorem extract_json_greedy_counterexample :
    extract_json_from_markdown "[[1],[2]]" = []
    ∧ extractArray_greedy "[[1],[2]]" = [Json.arr [Json.num 1], Json.arr [Json.num 2]] :=
  ⟨rfl, rfl⟩

/-- Claim C1 (amended): for every input string,
`extract_json_from_markdown` first searches for a fenced code block whose
content is a bracket-delimited array and parses its interior; if no fenced
block matches it searches for the first non-greedy (shortest-match)
bracket-delimited substring — from the first opening bracket to the first
closing bracket after it — anywhere in the text and parses that; whenever
parsing fails or no candidate exists it returns the empty list, never
raising; and the three concrete examples of the claim hold. -/
theorem extract_json_cases_and_examples :
    (∀ text : String,
      (∃ js, re_search_fenced text = some js ∧
        extract_json_from_markdown text = (json_loads_arr js).getD []) ∨
      (re_search_fenced text = none ∧ ∃ js, re_search_bracket text = some js ∧
        extract_json_from_markdown text = (json_loads_arr js).getD []) ∨
      (re_search_fenced text = none ∧ re_search_bracket text = none ∧
        extract_json_from_markdown text = []))
    ∧ extract_json_from_markdown "Here: ```json\n[\x7b\"a\":1\x7d]\n``` done"
        = [Json.obj [("a", Json.num 1)]]
    ∧ extract_json_from_markdown "no json here" = []
    ∧ extract_json_from_markdown "[\x7b\"a\":1\x7d,\x7b\"b\":2\x7d]"
        = [Json.obj [("a", Json.num 1)], Json.obj [("b", Json.num 2)]] := by
  refine ⟨fun text => ?_, rfl, rfl, rfl⟩
  cases h1 : re_search_fenced text with
  | some js => exact Or.inl ⟨js, rfl, by simp [extract_json_from_markdown, h1]⟩
  | none =>
    cases h2 : re_search_bracket text with
    | some js =>
      exact Or.inr (Or.inl ⟨rfl, js, rfl, by simp [extract_json_from_markdown, h1, h2]⟩)
    | none => exact Or.inr (Or.inr ⟨rfl, rfl, by simp [extract_json_from_markdown, h1, h2]⟩)

/-- Claim C4: every job put into `enriched_jobs` by the enrich node carries
an enrichment tag which is `long-desc` exactly when the description exceeds
fifty characters and `short-desc` otherwise, and the node is the pure map of
the per-job tagging over the `jobs` field. -/
theorem enrich_tagging (s : State) (j : Job)
    (hj : j ∈ (n_enrich s).enriched_jobs.getD []) :
    (n_enrich s).enriched_jobs = some ((s.jobs.getD []).map enrich_job)
    ∧ (j.enriched_tag = some "long-desc" ∨ j.enriched_tag = some "short-desc")
    ∧ (j.enriched_tag = some "long-desc" ↔ j.description.length > 50)
    ∧ (j.enriched_tag = some "short-desc" ↔ ¬ j.description.length > 50) := by
  refine ⟨rfl, ?_⟩
  simp only [n_enrich, Option.getD_some, List.mem_map] at hj
  obtain ⟨j0, hj0, rfl⟩ := hj
  by_cases hd : j0.description.length > 50
  · simp [enrich_job, hd]
  · simp [enrich_job, hd]

/-- Claim C4 witness: the tagging property at a concrete short-description
job. -/
theorem enrich_tagging_witness :
    (n_enrich { jobs := some [{ id := "a", description := "tiny" }] }).enriched_jobs
      = some (((({ jobs := some [{ id := "a", description := "tiny" }] } : State).jobs.getD
          []).map enrich_job))
    ∧ ((enrich_job { id := "a", description := "tiny" }).enriched_tag = some "long-desc"
        ∨ (enrich_job { id := "a", description := "tiny" }).enriched_tag = some "short-desc")
    ∧ ((enrich_job { id := "a", description := "tiny" }).enriched_tag = some "long-desc"
        ↔ (enrich_job { id := "a", description := "tiny" }).description.length > 50)
    ∧ ((enrich_job { id := "a", description := "tiny" }).enriched_tag = some "short-desc"
        ↔ ¬ (enrich_job { id := "a", description := "tiny" }).description.length > 50) :=
  enrich_tagging { jobs := some [{ id := "a", description := "tiny" }] }
    (enrich_job { id := "a", description := "tiny" }) (by decide)

/-- Claim C10: a state that already holds `selected_jobs` passes through the
human-selection node unchanged, with no interrupt raised, whether or not a
resume value is supplied. -/
theorem select_idempotent_after_selection (s : State) (chosen : List Job)
    (r : Option ResumeValue) (h : s.selected_jobs = some chosen) :
    n_select r s = Sum.inr s := by
  simp [n_select, h]

/-- Claim C10 witness: the pass-through at a concrete post-selection state. -/
theorem select_idempotent_after_selection_witness :
    n_select none { selected_jobs := some [] } = Sum.inr { selected_jobs := some [] } :=
  select_idempotent_after_selection { selected_jobs := some [] } [] none rfl

/-- Claim C2, counterexample to the claim as stated: a search provider that
raises is not caught anywhere in `invoke_search` or `n_search`, so the
exception propagates past the node boundary instead of being replaced by the
fallback jobs. -/
theorem search_raises_on_provider_error :
    n_search (fun _ _ => Except.error "boom") {} = Except.error "boom" := rfl

/-- Claim C2 (amended): whenever the search provider returns (rather than
raises), the search node succeeds and its `jobs` field is the fallback list
when the provider returned nothing and the provider's list otherwise, hence
always non-empty; a provider exception, however, propagates past the node
boundary uncaught. -/
theorem search_fallback (provider : List String → Option String → Except String (List Job))
    (s : State) (agentJobs : List Job)
    (h : invoke_search provider (s.seed_terms.getD ["python", "ml"]) s.location
      = Except.ok agentJobs) :
    ∃ s', n_search provider s = Except.ok s'
      ∧ s'.jobs = some (if agentJobs.isEmpty then fallback_jobs s.location else agentJobs)
      ∧ 1 ≤ (s'.jobs.getD []).length := by
  have hn : n_search provider s = Except.ok
      { s with
        jobs := some (if agentJobs.isEmpty then fallback_jobs s.location else agentJobs),
        needs_enrichment := some (decide
          ((if agentJobs.isEmpty then fallback_jobs s.location else agentJobs).length > 12)) } := by
    simp [n_search, h]
  refine ⟨_, hn, rfl, ?_⟩
  cases agentJobs with
  | nil => simp [fallback_jobs]
  | cons a l => simp

/-- Claim C2 witness: the fallback at a concrete empty provider result. -/
theorem search_fallback_witness :
    ∃ s', n_search (fun _ _ => Except.ok ([] : List Job)) {} = Except.ok s'
      ∧ s'.jobs = some (if ([] : List Job).isEmpty then fallback_jobs none else [])
      ∧ 1 ≤ (s'.jobs.getD []).length :=
  search_fallback (fun _ _ => Except.ok []) {} [] rfl

/-- Claim C3: after a successful run of the search node,
`needs_enrichment` holds exactly when more than twelve jobs were stored, the
router of the conditional edge sends such a state to the enrich label and
any other to the screen label, and the edge set wired by `build_graph`
contains exactly one conditional edge — the one from the search node with
the enrich/screen mapping. -/
theorem search_routing (provider : List String → Option String → Except String (List Job))
    (s s' : State) (h : n_search provider s = Except.ok s') :
    s'.needs_enrichment = some (decide ((s'.jobs.getD []).length > 12))
    ∧ (route_from_search s' = "enrich" ↔ (s'.jobs.getD []).length > 12)
    ∧ (route_from_search s' = "screen" ↔ ¬ (s'.jobs.getD []).length > 12)
    ∧ graph_edges.filter GraphEdge.isConditional
        = [GraphEdge.conditional "search_agent" route_from_search
            [("enrich", "enrich_node"), ("screen", "screen_agent")]] := by
  cases hp : invoke_search provider (s.seed_terms.getD ["python", "ml"]) s.location with
  | error e => simp [n_search, hp] at h
  | ok agentJobs =>
    simp only [n_search, hp, Except.ok.injEq] at h
    subst h
    refine ⟨rfl, ?_, ?_, rfl⟩
    · by_cases hlen : (if agentJobs.isEmpty then fallback_jobs s.location else agentJobs).length > 12
      · simp [route_from_search, hlen]
      · simp [route_from_search, hlen]
    · by_cases hlen : (if agentJobs.isEmpty then fallback_jobs s.location else agentJobs).length > 12
      · simp [route_from_search, hlen]
      · simp [route_from_search, hlen]

/-- The state produced by the search node from the empty initial state and
an empty provider result, for concrete instantiation. -/
def searchFallbackState : State :=
  { jobs := some (fallback_jobs none), needs_enrichment := some false }

/-- Claim C3 witness: the routing property at the concrete fallback state. -/
theorem search_routing_witness :
    searchFallbackState.needs_enrichment
      = some (decide ((searchFallbackState.jobs.getD []).length > 12))
    ∧ (route_from_search searchFallbackState = "enrich"
        ↔ (searchFallbackState.jobs.getD []).length > 12)
    ∧ (route_from_search searchFallbackState = "screen"
        ↔ ¬ (searchFallbackState.jobs.getD []).length > 12)
    ∧ graph_edges.filter GraphEdge.isConditional
        = [GraphEdge.conditional "search_agent" route_from_search
            [("enrich", "enrich_node"), ("screen", "screen_agent")]] :=
  search_routing (fun _ _ => Except.ok []) {} searchFallbackState (by rfl)

/-- Claim C5: after a successful run of the screen node, `ranked_jobs` and
`shortlisted_jobs` are the same list, its length is at most ten, and it is
the first ten elements of the screen call's filtered output. -/
theorem screen_cap (provider : List Job → String → Except String (List Job)) (s s' : State)
    (h : n_screen provider s = Except.ok s') :
    s'.ranked_jobs = s'.shortlisted_jobs
    ∧ (s'.ranked_jobs.getD []).length ≤ 10
    ∧ ∃ filtered, invoke_screen provider (screen_base s) (s.resume_pdf_path.getD "")
          = Except.ok filtered
        ∧ s'.ranked_jobs = some (filtered.take 10) := by
  cases hp : invoke_screen provider (screen_base s) (s.resume_pdf_path.getD "") with
  | error e => simp [n_screen, hp] at h
  | ok ranked =>
    simp only [n_screen, hp, Except.ok.injEq] at h
    subst h
    refine ⟨rfl, ?_, ranked, rfl, rfl⟩
    simp [List.length_take]

/-- Claim C5 witness: the cap invariant at a concrete one-job state with the
identity screen provider. -/
theorem screen_cap_witness :
    ({ jobs := some [{ id := "a" }], ranked_jobs := some [{ id := "a" }],
       shortlisted_jobs := some [{ id := "a" }] } : State).ranked_jobs
      = ({ jobs := some [{ id := "a" }], ranked_jobs := some [{ id := "a" }],
           shortlisted_jobs := some [{ id := "a" }] } : State).shortlisted_jobs
    ∧ (({ jobs := some [{ id := "a" }], ranked_jobs := some [{ id := "a" }],
          shortlisted_jobs := some [{ id := "a" }] } : State).ranked_jobs.getD []).length ≤ 10
    ∧ ∃ filtered,
        invoke_screen (fun jobs _ => Except.ok jobs)
            (screen_base { jobs := some [{ id := "a" }] })
            (({ jobs := some [{ id := "a" }] } : State).resume_pdf_path.getD "")
          = Except.ok filtered
        ∧ ({ jobs := some [{ id := "a" }], ranked_jobs := some [{ id := "a" }],
             shortlisted_jobs := some [{ id := "a" }] } : State).ranked_jobs
            = some (filtered.take 10) :=
  screen_cap (fun jobs _ => Except.ok jobs) { jobs := some [{ id := "a" }] }
    { jobs := some [{ id := "a" }], ranked_jobs := some [{ id := "a" }],
      shortlisted_jobs := some [{ id := "a" }] } (by rfl)

/-- What an id-list resume value should select: the ranked jobs whose ids
occur in the list, in ranked order, capped at two, with the first two ranked
jobs as fallback when nothing matches. -/
def ids_choice (ranked : List Job) (xs : List String) : List Job :=
  if ((ranked.filter (fun j => xs.contains j.id)).take 2).isEmpty
  then ranked.take 2
  else (ranked.filter (fun j => xs.contains j.id)).take 2

/-- Claim C6: resuming the selection node with an id list selects the ranked
jobs whose ids occur in the list, in ranked order, capped at two, falling
back to the first two ranked jobs when nothing matches; a non-empty object
list is truncated to its first two elements; an empty list or a value of any
other shape falls back to the first two ranked jobs; and the concrete
example of the claim resolves to the first and third ranked jobs, in ranked
order. -/
theorem select_resolution :
    (∀ (s : State) (ranked : List Job) (xs : List String),
      s.selected_jobs = none → s.ranked_jobs = some ranked →
      n_select (some (ResumeValue.ids xs)) s
        = Sum.inr { s with selected_jobs := some (ids_choice ranked xs) })
    ∧ (∀ (s : State) (xs : List Job), s.selected_jobs = none → xs ≠ [] →
        n_select (some (ResumeValue.objects xs)) s
          = Sum.inr { s with selected_jobs := some (xs.take 2) })
    ∧ (∀ s : State, s.selected_jobs = none →
        n_select (some ResumeValue.emptyList) s
          = Sum.inr { s with selected_jobs := some ((s.ranked_jobs.getD []).take 2) }
        ∧ n_select (some ResumeValue.other) s
          = Sum.inr { s with selected_jobs := some ((s.ranked_jobs.getD []).take 2) })
    ∧ n_select (some (ResumeValue.ids ["id3", "id1"]))
        { ranked_jobs := some [{ id := "id1" }, { id := "id2" }, { id := "id3" }] }
        = Sum.inr { ranked_jobs := some [{ id := "id1" }, { id := "id2" }, { id := "id3" }],
                    selected_jobs := some [{ id := "id1" }, { id := "id3" }] } := by
  refine ⟨?_, ?_, ?_, by decide⟩
  · intro s ranked xs h1 h2
    simp [n_select, h1, h2, resolve_selection, select_by_ids_eq, ids_choice]
  · intro s xs h1 h2
    have ht : (xs.take 2).isEmpty = false := by
      cases xs with
      | nil => exact absurd rfl h2
      | cons a l => rfl
    simp [n_select, h1, resolve_selection, ht]
  · intro s h1
    constructor
    · simp [n_select, h1, resolve_selection]
    · simp [n_select, h1, resolve_selection]

/-- Claim C6 witness: id-list resolution at a concrete two-job ranked list. -/
theorem select_resolution_witness :
    n_select (some (ResumeValue.ids ["id2"]))
        { ranked_jobs := some [{ id := "id1" }, { id := "id2" }] }
      = Sum.inr { ranked_jobs := some [{ id := "id1" }, { id := "id2" }],
                  selected_jobs := some
                    (ids_choice [{ id := "id1" }, { id := "id2" }] ["id2"]) } :=
  select_resolution.1 { ranked_jobs := some [{ id := "id1" }, { id := "id2" }] }
    [{ id := "id1" }, { id := "id2" }] ["id2"] rfl rfl

/-- Claim C7: when the tailor provider raises, the tailor step returns the
mapping holding the single `error` entry describing the failure, and the
tailor node stores exactly that mapping — nothing is raised past the node
boundary. -/
theorem tailor_error_mapping (provider : List Job → String → Except String String)
    (selected : List Job) (resume_path e : String) (s : State)
    (hsel : selected ≠ []) (hp : provider selected resume_path = Except.error e)
    (hs : s.selected_jobs = some selected) (hr : s.resume_pdf_path = some resume_path) :
    invoke_tailor provider selected resume_path = [("error", "Tailor call failed: " ++ e)]
    ∧ (invoke_tailor provider selected resume_path).length = 1
    ∧ (n_tailor provider s).tailored_resumes = some [("error", "Tailor call failed: " ++ e)] := by
  have hne : selected.isEmpty = false := by
    cases selected with
    | nil => exact absurd rfl hsel
    | cons a l => rfl
  have h1 : invoke_tailor provider selected resume_path
      = [("error", "Tailor call failed: " ++ e)] := by
    simp [invoke_tailor, hne, hp]
  exact ⟨h1, by rw [h1]; rfl, by simp [n_tailor, hs, hr, h1]⟩

/-- Claim C7 witness: the error mapping at a concrete failing provider. -/
theorem tailor_error_mapping_witness :
    invoke_tailor (fun _ _ => Except.error "net down") [{ id := "a" }] "r.pdf"
      = [("error", "Tailor call failed: " ++ "net down")]
    ∧ (invoke_tailor (fun _ _ => Except.error "net down") [{ id := "a" }] "r.pdf").length = 1
    ∧ (n_tailor (fun _ _ => Except.error "net down")
        { resume_pdf_path := some "r.pdf", selected_jobs := some [{ id := "a" }] }).tailored_resumes
      = some [("error", "Tailor call failed: " ++ "net down")] :=
  tailor_error_mapping (fun _ _ => Except.error "net down") [{ id := "a" }] "r.pdf" "net down"
    { resume_pdf_path := some "r.pdf", selected_jobs := some [{ id := "a" }] }
    (by decide) rfl rfl rfl

/-- Claim C8: a run suspended at the interrupt node and then resumed with a
resume value completes with a final state agreeing with the checkpointed
pre-suspension state on every pre-interrupt field — the selection and tailor
continuations only add `selected_jobs` and `tailored_resumes`. -/
theorem suspend_resume_frame (p : Providers) (s0 saved : State) (payload : InterruptPayload)
    (v : ResumeValue) (final : State) (trFresh trResume : List String)
    (hfresh : run_fresh p s0 = (RunOutcome.suspended saved payload, trFresh))
    (hres : resume_run p saved v = (RunOutcome.completed final, trResume)) :
    final.jobs = saved.jobs ∧ final.needs_enrichment = saved.needs_enrichment
    ∧ final.enriched_jobs = saved.enriched_jobs ∧ final.ranked_jobs = saved.ranked_jobs
    ∧ final.shortlisted_jobs = saved.shortlisted_jobs ∧ final.seed_terms = saved.seed_terms
    ∧ final.location = saved.location ∧ final.resume_pdf_path = saved.resume_pdf_path := by
  cases hsel : n_select (some v) saved with
  | inl pl => simp [resume_run, hsel] at hres
  | inr s4 =>
    simp only [resume_run, hsel, Prod.mk.injEq, RunOutcome.completed.injEq] at hres
    obtain ⟨hfin, -⟩ := hres
    subst hfin
    obtain ⟨h1, h2, h3, h4, h5, h6, h7, h8⟩ := n_select_frame (some v) saved s4 hsel
    obtain ⟨t1, t2, t3, t4, t5, t6, t7, t8⟩ := n_tailor_frame p.tailor s4
    exact ⟨t1.trans h1, t2.trans h2, t3.trans h3, t4.trans h4,
           t5.trans h5, t6.trans h6, t7.trans h7, t8.trans h8⟩

/-- The state checkpointed when the mock run suspends at the interrupt
node. -/
def suspendedState : State :=
  { jobs := some (fallback_jobs none), needs_enrichment := some false,
    ranked_jobs := some (fallback_jobs none), shortlisted_jobs := some (fallback_jobs none) }

/-- The final state of the mock run after resuming with the empty list. -/
def resumedState : State :=
  let sel := (fallback_jobs none).take 2
  { suspendedState with selected_jobs := some sel, tailored_resumes := some [] }

/-- Claim C8 witness: the frame property at the concrete mock run. -/
theorem suspend_resume_frame_witness :
    resumedState.jobs = suspendedState.jobs
    ∧ resumedState.needs_enrichment = suspendedState.needs_enrichment
    ∧ resumedState.enriched_jobs = suspendedState.enriched_jobs
    ∧ resumedState.ranked_jobs = suspendedState.ranked_jobs
    ∧ resumedState.shortlisted_jobs = suspendedState.shortlisted_jobs
    ∧ resumedState.seed_terms = suspendedState.seed_terms
    ∧ resumedState.location = suspendedState.location
    ∧ resumedState.resume_pdf_path = suspendedState.resume_pdf_path :=
  suspend_resume_frame mockProviders {} suspendedState (select_payload suspendedState)
    ResumeValue.emptyList resumedState
    ["search_agent", "screen_agent", "human_select_interrupt"]
    ["human_select_interrupt", "tailor_agent"] (by rfl) (by rfl)

/-- Claim C9: a whole run — fresh invocation plus resumption — is a pure
function of the initial state, the provider oracles and the resume value:
equal inputs give the same executed node sequence and the same outcome. -/
theorem run_deterministic (p q : Providers) (s0 : State) (v w : ResumeValue)
    (hpq : p = q) (hvw : v = w) :
    full_run p s0 v = full_run q s0 w := by
  rw [hpq, hvw]

/-- Claim C9 witness: determinism at the concrete mock run. -/
theorem run_deterministic_witness :
    full_run mockProviders {} ResumeValue.emptyList
      = full_run mockProviders {} ResumeValue.emptyList :=
  run_deterministic mockProviders mockProviders {} ResumeValue.emptyList
    ResumeValue.emptyList rfl rfl

end JobSearch
